import Mathlib

/-! Shallow embedding of the Negotiation game engine (`sandbox.py`,
class `NegotiationEnv`) together with the pieces of the `textarena`
runtime (`ta.State`) that the engine calls into.  The `textarena.State`
class itself is not part of the sources, so its operations are modelled
from the specification (see the doc comments marked `Modelled from the
spec:`); everything else is translated directly from `sandbox.py`.

Python strings are modelled as Lean `String`s (lists of characters);
the ASCII fragments of `str.lower`, `str.title`, `str.strip` and
`int()` are embedded, which covers every string the engine itself
produces.  Python integers are modelled as `ℤ`; uncaught Python
exceptions are modelled with `Except PyError`.
-/

namespace Negotiation

/-- Python whitespace, as used by `str.split()`, `str.strip()` and the
regex class `\s` (ASCII fragment). -/
def isPyWS (c : Char) : Bool :=
  c = ' ' || c = '\t' || c = '\n' || c = '\r' || c = '\x0b' || c = '\x0c'

/-- Drop leading regex `\s*` whitespace (greedy). -/
def dropWS (l : List Char) : List Char :=
  l.dropWhile isPyWS

/-- Case-insensitive "the pattern `p` literally matches a prefix of `l`"
(regex `re.IGNORECASE` literal matching, ASCII case folding). -/
def isPreCI : List Char → List Char → Bool
  | [], _ => true
  | _ :: _, [] => false
  | p :: ps, c :: cs => (c.toLower == p.toLower) && isPreCI ps cs

/-- Case-insensitive unanchored search for a literal pattern, the
embedding of `re.compile(r"...", re.IGNORECASE).search`. -/
def searchCI (pat : List Char) : List Char → Bool
  | [] => isPreCI pat []
  | c :: cs => isPreCI pat (c :: cs) || searchCI pat cs

/-- Embedding of `self.accept_pattern.search(action)` (line 38: `\[Accept\]`, IGNORECASE). -/
def hasAccept (action : String) : Bool :=
  searchCI "[accept]".data action.data

/-- Embedding of `self.deny_pattern.search(action)` (line 39: `\[Deny\]`, IGNORECASE). -/
def hasDeny (action : String) : Bool :=
  searchCI "[deny]".data action.data

/-- Characters after the first case-insensitive occurrence of `[Offer]`. -/
def findOfferTail : List Char → Option (List Char)
  | [] => none
  | c :: cs =>
    if isPreCI "[offer]".data (c :: cs) then some ((c :: cs).drop 7)
    else findOfferTail cs

/-- Characters strictly before the first `'.'`, or `none` when no dot
follows (the regex needs the closing `[\.]` to match at all). -/
def takeToDot : List Char → Option (List Char)
  | [] => none
  | c :: cs => if c = '.' then some [] else (takeToDot cs).map (c :: ·)

/-- Embedding of `self.offer_pattern.search(action)` and `.group(1)` (line 40:
`\[Offer\](.*?)[\.]` with IGNORECASE and DOTALL).  `re.search` returns the
leftmost match: the lazy `(.*?)` stops at the first `'.'` after the first
`[Offer]` occurrence.  If no `'.'` follows the first occurrence then none
follows any later occurrence either, so the whole search fails; hence
scanning only from the first `[Offer]` is equivalent to `re.search`. -/
def offerGroupRaw (action : String) : Option String :=
  (findOfferTail action.data).bind fun rest => (takeToDot rest).map (⟨·⟩)

/-- Embedding of `str.strip()` on the character list (ASCII whitespace). -/
def pyStripList (l : List Char) : List Char :=
  ((l.dropWhile isPyWS).reverse.dropWhile isPyWS).reverse

/-- Embedding of `str.strip()`. -/
def pyStrip (s : String) : String :=
  ⟨pyStripList s.data⟩

/-- Embedding of `str.rstrip('.')`. -/
def rstripDot (s : String) : String :=
  ⟨(s.data.reverse.dropWhile (· = '.')).reverse⟩

/-- Collapse interior whitespace runs to a single `' '` (input is assumed
already stripped at both ends; each maximal run contributes its last
character, rewritten to `' '`). -/
def collapseWS : List Char → List Char
  | [] => []
  | c :: cs =>
    if isPyWS c && isPyWS (cs.headD 'x') then collapseWS cs
    else (if isPyWS c then ' ' else c) :: collapseWS cs

/-- Embedding of `' '.join(offer_str.split())` (line 338): split on whitespace runs,
drop empties, re-join with single spaces — i.e. trim both ends and
collapse interior whitespace runs to single spaces. -/
def normWS (s : String) : String :=
  ⟨collapseWS (pyStripList s.data)⟩

/-- Generic embedding of `re.split` for separators that consume at least
one character: scan left to right, at each position try the separator;
on a match emit the piece accumulated so far and continue after the
separator.  `fuel` bounds the recursion (a separator consumes ≥ 1
character, so `l.length + 1` steps always suffice). -/
def splitScan (sep : List Char → Option (List Char)) :
    ℕ → List Char → List Char → List (List Char)
  | 0, acc, _ => [acc.reverse]
  | _ + 1, acc, [] => [acc.reverse]
  | fuel + 1, acc, c :: cs =>
    match sep (c :: cs) with
    | some rest => acc.reverse :: splitScan sep fuel [] rest
    | none => splitScan sep fuel (c :: acc) cs

/-- One match of the separator `;\s*You give\s*` (IGNORECASE) at the
current position (line 341).  The greedy `\s*` before `You` cannot
backtrack usefully: stopping the run early leaves a whitespace character
where `Y` must match, so the regex is equivalent to "skip the maximal
whitespace run, then require the literal". -/
def sepYouGive (l : List Char) : Option (List Char) :=
  match l with
  | ';' :: rest =>
    let r1 := dropWS rest
    if isPreCI "you give".data r1 then some (dropWS (r1.drop 8)) else none
  | _ => none

/-- Embedding of `re.split(r';\s*You give\s*', offer_str, flags=re.IGNORECASE)` (line 341). -/
def splitYouGive (s : String) : List String :=
  (splitScan sepYouGive (s.data.length + 1) [] s.data).map (⟨·⟩)

/-- One match of the separator `,\s*|and\s*` (case-sensitive) at the
current position (line 366); the first alternative is tried first. -/
def sepCommaAnd : List Char → Option (List Char)
  | ',' :: rest => some (dropWS rest)
  | 'a' :: 'n' :: 'd' :: rest => some (dropWS rest)
  | _ => none

/-- Embedding of `re.split(r',\s*|and\s*', resource_str)` (line 366). -/
def splitCommaAnd (s : String) : List String :=
  (splitScan sepCommaAnd (s.data.length + 1) [] s.data).map (⟨·⟩)

/-- Embedding of `re.sub(r'^I give\s*', '', s, flags=re.IGNORECASE)` (line 345): the
anchored pattern removes one leading `I give` plus the maximal following
whitespace run, if present. -/
def removeIGive (s : String) : String :=
  if isPreCI "i give".data s.data then ⟨dropWS (s.data.drop 6)⟩ else s

/-- Embedding of `item.split(' ', 1)`: split on the first literal space character;
`none` models the `ValueError` of unpacking a one-element result. -/
def splitFirstSpace : List Char → Option (List Char × List Char)
  | [] => none
  | c :: cs =>
    if c = ' ' then some ([], cs)
    else (splitFirstSpace cs).map fun p => (c :: p.1, p.2)

/-- Decimal value of a digit list, `none` unless all characters are ASCII
digits and the list is non-empty. -/
def digitsVal (l : List Char) : Option ℕ :=
  if l ≠ [] ∧ l.all Char.isDigit then
    some (l.foldl (fun a c => a * 10 + (c.toNat - 48)) 0)
  else none

/-- Embedding of `int(qty_str)` (line 374), `none` modelling `ValueError`.  Python also
accepts surrounding whitespace, underscore digit grouping and non-ASCII
digits; the engine only ever succeeds on plain signed decimals, which is
the fragment embedded here. -/
def pyInt (s : String) : Option ℤ :=
  match s.data with
  | '-' :: rest => (digitsVal rest).map fun n => -(n : ℤ)
  | '+' :: rest => (digitsVal rest).map fun n => (n : ℤ)
  | l => (digitsVal l).map fun n => (n : ℤ)

/-- Embedding of `str.title()` (line 375), ASCII fragment: a letter is upper-cased when
the previous character is not a letter, lower-cased otherwise. -/
def pyTitleAux (prevAlpha : Bool) : List Char → List Char
  | [] => []
  | c :: cs =>
    (if c.isAlpha then (if prevAlpha then c.toLower else c.toUpper) else c)
      :: pyTitleAux c.isAlpha cs

/-- Embedding of `resource_name.strip().title()` applies `pyTitle` after a strip. -/
def pyTitle (s : String) : String :=
  ⟨pyTitleAux false s.data⟩

/-- Embedding of `self.resource_names` (line 27). -/
def resource_names : List String :=
  ["Wheat", "Wood", "Sheep", "Brick", "Ore"]

/-- Embedding of `self.base_values` (line 28), a dict with exactly the five resource
names as keys. -/
def base_values (r : String) : ℤ :=
  if r = "Wheat" then 5
  else if r = "Wood" then 10
  else if r = "Sheep" then 15
  else if r = "Brick" then 25
  else if r = "Ore" then 40
  else 0

/-- Insertion-ordered Python dict assignment `resources[name] = qty`
(line 378): a repeated key keeps its original position and gets the new
value; a fresh key is appended. -/
def dictInsert (l : List (String × ℤ)) (k : String) (v : ℤ) : List (String × ℤ) :=
  match l with
  | [] => [(k, v)]
  | (k', v') :: rest =>
    if k' = k then (k', v) :: rest else (k', v') :: dictInsert rest k v

/-- The item loop of `_parse_resource_list` (lines 368–380): strip each
item, skip empty ones, split `<qty> <name>` on the first space, parse the
quantity with `int()`, normalize the name with `.strip().title()`, and
fail the **whole list** (the `return None` inside the loop / the caught
`ValueError`) on any malformed item, unknown name or non-positive
quantity. -/
def parseResourceItems : List String → List (String × ℤ) → Option (List (String × ℤ))
  | [], acc => some acc
  | item :: rest, acc =>
    let it := pyStrip item
    if it = "" then parseResourceItems rest acc
    else
      match splitFirstSpace it.data with
      | none => none
      | some (q, nm) =>
        match pyInt ⟨q⟩ with
        | none => none
        | some qty =>
          let name := pyTitle (pyStrip ⟨nm⟩)
          if name ∈ resource_names ∧ 0 < qty then
            parseResourceItems rest (dictInsert acc name qty)
          else none

/-- Embedding of `_parse_resource_list` (lines 360–381). -/
def parse_resource_list (s : String) : Option (List (String × ℤ)) :=
  parseResourceItems (splitCommaAnd s) []

/-- The structured offer produced by `_parse_offer` (line 354):
`{'offered_items': ..., 'requested_items': ...}`, each an
insertion-ordered dict of resource name to quantity. -/
structure ParsedOffer where
  offered_items : List (String × ℤ)
  requested_items : List (String × ℤ)
deriving DecidableEq, Repr

/-- Embedding of `_parse_offer` (lines 330–358): normalize whitespace, split on
`;\s*You give\s*` into exactly two parts, strip the leading `I give`
from the first part, strip whitespace and trailing dots from the second,
parse both resource lists, and reject the offer when either list fails
to parse or is empty (`if not offered_items or not requested_items`).
The surrounding `try/except` can only fire inside
`_parse_resource_list`, which already returns `None` itself. -/
def parse_offer (s : String) : Option ParsedOffer :=
  let s1 := normWS s
  match splitYouGive s1 with
  | [part0, part1] =>
    let offered_items_str := pyStrip (removeIGive part0)
    let requested_items_str := rstripDot (pyStrip part1)
    match parse_resource_list offered_items_str,
        parse_resource_list requested_items_str with
    | some offered, some requested =>
      if offered = [] ∨ requested = [] then none
      else some ⟨offered, requested⟩
    | _, _ => none
  | _ => none

/-- Decimal digits of `n`, most significant first; `fuel` bounds the
recursion (`n + 1` always suffices). -/
def natDigitsAux : ℕ → ℕ → List Char → List Char
  | 0, _, acc => acc
  | fuel + 1, n, acc =>
    let d := Char.ofNat (48 + n % 10)
    if n < 10 then d :: acc else natDigitsAux fuel (n / 10) (d :: acc)

/-- Python `str(n)` for a non-negative integer. -/
def natStr (n : ℕ) : String :=
  ⟨natDigitsAux (n + 1) n []⟩

/-- Python `str(i)` / f-string interpolation for an `int`. -/
def intStr (i : ℤ) : String :=
  if i < 0 then "-" ++ natStr i.natAbs else natStr i.toNat

/-- Embedding of `", ".join(pieces)`: the pieces separated by comma-space. -/
def joinCommaSep : List String → String
  | [] => ""
  | [x] => x
  | x :: xs => x ++ ", " ++ joinCommaSep xs

/-- Embedding of `", ".join(f"{qty} {res}" for res, qty in d.items())`
(lines 387–388). -/
def renderItems (l : List (String × ℤ)) : String :=
  joinCommaSep (l.map fun p => intStr p.2 ++ " " ++ p.1)

/-- Embedding of `_offer_to_str` (lines 383–389). -/
def offer_to_str (o : ParsedOffer) : String :=
  "Offered items: " ++ renderItems o.offered_items
    ++ "; Requested items: " ++ renderItems o.requested_items

/-- The pending-offer dict recorded at lines 318–322:
`{"from_player": player_id, "to_player": 1 - player_id, "offer": parsed_offer}`.
These three strings are its **only** keys. -/
structure CurrentOffer where
  from_player : ℤ
  to_player : ℤ
  offer : ParsedOffer
deriving DecidableEq, Repr

/-- Per-player inventory valuation entry (lines 81–92):
`{"initial": ..., "current": ..., "change": ...}`. -/
structure Valuation where
  initial : ℤ
  current : ℤ
  change : ℤ
deriving DecidableEq, Repr

/-- The episode outcome recorded by `set_draw` / `set_winner`.
Modelled from the spec: the OutcomeResolver "compares `change` for the
two players: strict inequality yields a winner (the larger gainer);
equality yields a draw" and hands the result to the external harness. -/
inductive GameOutcome where
  | draw (reason : String)
  | winners (ids : List ℤ) (reason : String)
deriving DecidableEq, Repr

/-- The `game_state` dict built in `reset` (lines 59–92).  The
`player_resources` and `player_values` dicts have exactly the integer
keys 0 and 1, each mapping the five resource names to an `int`; they are
modelled as total functions that the engine only ever applies to those
keys. -/
structure GameState where
  num_trades : ℕ
  current_offer : Option CurrentOffer
  player_resources : ℤ → String → ℤ
  player_values : ℤ → String → ℤ
  inventory_value : ℤ → Valuation

/-- Modelled from the spec: the `textarena` turn/observation bookkeeping
(`ta.State`) is not part of the sources; per §5–§7 of the spec it is a
single-threaded turn-synchronous store holding the game state, a turn
counter, the optional turn limit, broadcast narration messages, and the
structured faults `(player_ids, reasons)` handed to the external
harness, none of which abort the engine internally. -/
structure TAState where
  game_state : GameState
  turn : ℕ
  max_turns : Option ℕ
  terminated : Bool
  observations : List (ℤ × String)
  faults : List (List ℤ × List String)
  outcome : Option GameOutcome

/-- Embedding of `ta.GAME_ID`, the sender id of engine narration messages.  Modelled
from the spec: narration is broadcast by the engine itself rather than a
player, so it carries a distinguished non-player id. -/
def gameId : ℤ := -1

/-- Modelled from the spec: `state.add_observation` appends one broadcast
message to the observation/log stream (§6 "zero or more broadcast
narration messages"). -/
def addObservation (s : TAState) (fromId : ℤ) (msg : String) : TAState :=
  { s with observations := s.observations ++ [(fromId, msg)] }

/-- Modelled from the spec: `state.set_invalid_move` records a structured
fault `(player_ids, reasons)`; §7: "All faults are structured reports
... passed to the external harness; none abort the engine internally ...
the episode continues unless the harness elects otherwise", so the
terminated flag is untouched. -/
def setInvalidMove (s : TAState) (ids : List ℤ) (reasons : List String) : TAState :=
  { s with faults := s.faults ++ [(ids, reasons)] }

/-- Modelled from the spec: `state.set_draw` records the draw outcome for
the external harness. -/
def setDraw (s : TAState) (reason : String) : TAState :=
  { s with outcome := some (.draw reason) }

/-- Modelled from the spec: `state.set_winner` records the winner(s) for
the external harness. -/
def setWinner (s : TAState) (ids : List ℤ) (reason : String) : TAState :=
  { s with outcome := some (.winners ids reason) }

/-- Modelled from the spec: `state.step()` finishes the turn — §5: the
engine is "turn-synchronous: exactly one action from one player is
processed to completion", after which the turn counter advances. -/
def taStep (s : TAState) : TAState :=
  { s with turn := s.turn + 1 }

/-- Functional update of one cell of a `player_resources`-style dict:
`res[p][r] = v`. -/
def updRes (f : ℤ → String → ℤ) (p : ℤ) (r : String) (v : ℤ) : ℤ → String → ℤ :=
  fun q s => if q = p ∧ s = r then v else f q s

/-- One transfer loop of lines 237–239 resp. 240–242: for each
`(resource, qty)` in `items`, debit `fromP` and credit `toP`. -/
def applyTransfer (res : ℤ → String → ℤ) (fromP toP : ℤ) :
    List (String × ℤ) → ℤ → String → ℤ
  | [] => res
  | (r, q) :: rest =>
    let res1 := updRes res fromP r (res fromP r - q)
    let res2 := updRes res1 toP r (res1 toP r + q)
    applyTransfer res2 fromP toP rest

/-- The trade execution of lines 237–242: debit every offered quantity
from the proposer and credit it to the acceptor, then debit every
requested quantity from the acceptor and credit it to the proposer. -/
def executeTrade (res : ℤ → String → ℤ) (proposer acceptor : ℤ)
    (proposer_items acceptor_items : List (String × ℤ)) : ℤ → String → ℤ :=
  applyTransfer (applyTransfer res proposer acceptor proposer_items)
    acceptor proposer acceptor_items

/-- Embedding of `_check_if_sufficient_resources` (lines 284–298):
`player_resources.get(resource, 0) < qty` fails the check. -/
def check_if_sufficient_resources (trade_resources : List (String × ℤ))
    (player_resources : String → ℤ) : Bool :=
  trade_resources.all fun p => decide (p.2 ≤ player_resources p.1)

/-- Embedding of `_calculate_player_inventory_value` (lines 431–442): the dicts built
in `reset` hold the five resources in `resource_names` order, so the sum
over `resources.items()` is the sum over that list. -/
def calculate_player_inventory_value (gs : GameState) (player_id : ℤ) : ℤ :=
  (resource_names.map fun r =>
    gs.player_resources player_id r * gs.player_values player_id r).sum

/-- Uncaught Python exceptions that the engine can raise. -/
inductive PyError where
  | keyError (key : String)
  | attributeError (attr : String)
deriving DecidableEq, Repr

/-- Embedding of `_update_inventory_values` (lines 413–429): its first statement reads
`self.game_state`, but `NegotiationEnv` never defines an attribute of
that name — the state dict lives at `self.state.game_state`, which every
other method uses — so the access raises `AttributeError`. -/
def update_inventory_values (_ : TAState) : Except PyError TAState :=
  .error (.attributeError "game_state")

/-- Lines 223–266, the accept branch **after** the offer fields have been
read: compute the two independent sufficiency checks; if both pass,
execute the trade, broadcast the acceptance, and call
`_update_inventory_values`; otherwise record one fault naming the
proposer and/or the acceptor, in that order, with the source's reason
strings ("a traded" is the source's own typo). -/
def acceptBranchRest (s : TAState) (player_id proposer_id : ℤ)
    (proposer_items acceptor_items : List (String × ℤ)) : Except PyError TAState :=
  let proposer_valid := check_if_sufficient_resources proposer_items
    (s.game_state.player_resources proposer_id)
  let acceptor_valid := check_if_sufficient_resources acceptor_items
    (s.game_state.player_resources player_id)
  if proposer_valid && acceptor_valid then
    let res' := executeTrade s.game_state.player_resources proposer_id player_id
      proposer_items acceptor_items
    let s' := { s with game_state := { s.game_state with player_resources := res' } }
    let s'' := addObservation s' gameId
      ("Player " ++ intStr player_id ++ " accepted the trade offer from Player "
        ++ intStr proposer_id ++ ".")
    update_inventory_values s''
  else
    let ids := (if !proposer_valid then [proposer_id] else [])
      ++ (if !acceptor_valid then [player_id] else [])
    let reasons :=
      (if !proposer_valid then
        ["Player " ++ intStr proposer_id
          ++ " had a proposed trade accepted without having enough resources to execute it."]
      else [])
      ++ (if !acceptor_valid then
        ["Player " ++ intStr player_id
          ++ " accepted a traded without having enough resources"]
      else [])
    .ok (setInvalidMove s ids reasons)

/-- Embedding of `_check_and_execute_existing_offer` (lines 205–282).  With a pending
offer and an accept match, line 219 reads `current_offer["from_player"]`
(a key the dict recorded at lines 318–322 does have) and line 220 then
reads `current_offer["offered_resources"]` — **not** a key of that dict,
whose only keys are `"from_player"`, `"to_player"` and `"offer"` — so
Python raises `KeyError('offered_resources')` and lines 221–266
(embedded separately as `acceptBranchRest`) are unreachable from `step`. -/
def check_and_execute_existing_offer (s : TAState) (player_id : ℤ)
    (action : String) : Except PyError TAState :=
  match s.game_state.current_offer with
  | none => .ok s
  | some c =>
    if hasAccept action then
      let _proposer_id := c.from_player
      .error (.keyError "offered_resources")
    else if hasDeny action then
      let s' := addObservation s gameId
        ("Player " ++ intStr player_id ++ " denied the trade offer.")
      .ok { s' with game_state := { s'.game_state with current_offer := none } }
    else
      .ok (setInvalidMove s [player_id]
        ["Player " ++ intStr player_id
          ++ " received a trade offer but neither accepted nor denied it."])

/-- Embedding of `_check_for_new_offer` (lines 303–328): when the episode is not
terminated, search the action for the offer grammar; on a successful
parse record the new offer over `game_state["current_offer"]` and
broadcast it.  The two debugging `input(...)` calls (lines 311 and 315)
read the console and discard the result, leaving the state untouched. -/
def check_for_new_offer (s : TAState) (player_id : ℤ) (action : String) : TAState :=
  if s.terminated then s
  else
    match offerGroupRaw action with
    | none => s
    | some raw =>
      let offer_text := pyStrip raw
      match parse_offer offer_text with
      | none => s
      | some po =>
        let c := CurrentOffer.mk player_id (1 - player_id) po
        let gs' := { s.game_state with current_offer := some c }
        let s' := { s with game_state := gs' }
        addObservation s' gameId
          ("Player " ++ intStr player_id ++ " made the following offer to Player "
            ++ intStr (1 - player_id) ++ ": " ++ offer_to_str po)

/-- Embedding of `_determine_winnner` (lines 392–410; the triple-`n` spelling is the
source's): compare the two `change` values, record a draw on equality
("invetory" is the source's own typo), otherwise record the winner. -/
def determine_winnner (s : TAState) : TAState :=
  let p0_gain := (s.game_state.inventory_value 0).change
  let p1_gain := (s.game_state.inventory_value 1).change
  if p0_gain = p1_gain then
    setDraw s "Same change in invetory value for all players. Draw."
  else
    let winner_id : ℤ := if p0_gain > p1_gain then 0 else 1
    setWinner s [winner_id]
      ("Player " ++ intStr winner_id ++ " won by having a larger gain in inventory value.")

/-- Line 200: `self.state.turn == self.state.max_turns`; Python compares
an `int` with `None` as unequal. -/
def atTurnLimit (s : TAState) : Bool :=
  match s.max_turns with
  | some m => s.turn == m
  | none => false

/-- Line 201 calls `self._determine_winner()`, but the class only defines
`_determine_winnner` (line 392), so the attribute lookup raises
`AttributeError`; the defined routine (embedded as `determine_winnner`)
is unreachable from `step`. -/
def call_determine_winner (_ : TAState) : Except PyError TAState :=
  .error (.attributeError "_determine_winner")

/-- Embedding of `step` (lines 143–203): log the action, process a pending offer,
check for a new offer, resolve the outcome at the turn limit, and finish
the turn.  `state.check_action_format` is modelled from the spec as pure
per-turn bookkeeping with no effect on the engine state.  On an uncaught
exception the `Except.error` result discards the partially mutated
state; the mutations preceding each modelled raise never touch the
stocks or the pending offer. -/
def stepFull (s : TAState) (player_id : ℤ) (action : String) : Except PyError TAState :=
  match check_and_execute_existing_offer (addObservation s player_id action)
      player_id action with
  | .error e => .error e
  | .ok s2 =>
    match (if atTurnLimit (check_for_new_offer s2 player_id action) then
        call_determine_winner (check_for_new_offer s2 player_id action)
      else .ok (check_for_new_offer s2 player_id action)) with
    | .error e => .error e
    | .ok s4 => .ok (taStep s4)

/-- Position of a resource name in `resource_names`, i.e. the order in
which the dict comprehensions of `reset` draw for it. -/
def resIdx (r : String) : ℕ :=
  if r = "Wheat" then 0
  else if r = "Wood" then 1
  else if r = "Sheep" then 2
  else if r = "Brick" then 3
  else if r = "Ore" then 4
  else 5

/-- Embedding of `random.randint(a, b)`, applied to the raw draw `v` of the seeded
generator: a uniform value of `[a, b]` (both ends included).  The seeded
Python Mersenne Twister is modelled as an explicit stream of raw draws
`g : ℕ → ℕ`; `random.seed(seed)` makes `g` a function of the seed alone. -/
def randint (a b : ℤ) (v : ℕ) : ℤ :=
  a + (v : ℤ) % (b - a + 1)

/-- Embedding of `int(0.2 * base_value)` (line 74).  For the five base values 5, 10,
15, 25 and 40 the double-precision product `0.2 * base` rounds to exactly
`base / 5` (1.0, 2.0, 3.0, 5.0, 8.0), so the float truncation equals the
exact integer division. -/
def variationOf (base : ℤ) : ℤ :=
  base / 5

/-- The stock dicts of lines 62–65: for player `p ∈ {0, 1}` and each
resource in `resource_names` order, `random.randint(5, 25)`; player 0's
five draws come first (raw draws 0–4), then player 1's (draws 5–9). -/
def resetResources (g : ℕ → ℕ) : ℤ → String → ℤ :=
  fun p r =>
    if (p = 0 ∨ p = 1) ∧ r ∈ resource_names then
      randint 5 25 (g (p.toNat * 5 + resIdx r))
    else 0

/-- The value loop of lines 70–78: for player `p ∈ {0, 1}` and each
resource in order, draw `random.randint(min_value, max_value)` where
`min_value = max(base - variation, 5)` and
`max_value = min(base + variation, 40)`; these ten draws follow the ten
stock draws (raw draws 10–19). -/
def resetValues (g : ℕ → ℕ) : ℤ → String → ℤ :=
  fun p r =>
    if (p = 0 ∨ p = 1) ∧ r ∈ resource_names then
      let base := base_values r
      let variation := variationOf base
      randint (max (base - variation) 5) (min (base + variation) 40)
        (g (10 + p.toNat * 5 + resIdx r))
    else 0

/-- Embedding of `reset` (lines 54–102), as a function of the seeded raw-draw stream:
fresh stocks and private values, no trades, no pending offer, and both
inventory valuations initialised with `initial = current` and
`change = 0` (lines 81–92). -/
def resetGameState (g : ℕ → ℕ) : GameState :=
  let gs0 : GameState :=
    { num_trades := 0
      current_offer := none
      player_resources := resetResources g
      player_values := resetValues g
      inventory_value := fun _ => ⟨0, 0, 0⟩ }
  { gs0 with inventory_value := fun p =>
      let v := calculate_player_inventory_value gs0 p
      ⟨v, v, 0⟩ }

/-- The raised exception of a step, if any. -/
def errOf : Except PyError TAState → Option PyError
  | .error e => some e
  | .ok _ => none

/-- The resulting state of a step, if it did not raise. -/
def okState : Except PyError TAState → Option TAState :=
  Except.toOption

/-- A small reachable-shaped test state: stocks of 10 everywhere, unit
values, a configurable pending offer and turn counter, turn limit 10. -/
def mkState (off : Option CurrentOffer) (turn : ℕ) : TAState :=
  { game_state :=
      { num_trades := 0
        current_offer := off
        player_resources := fun _ _ => 10
        player_values := fun _ _ => 1
        inventory_value := fun _ => ⟨50, 50, 0⟩ }
    turn := turn
    max_turns := some 10
    terminated := false
    observations := []
    faults := []
    outcome := none }

/-- The pending offer of the spec's example scenario 1:
player 0 offers 2 Wheat and 1 Ore for 3 Sheep. -/
def po01 : ParsedOffer :=
  ⟨[("Wheat", 2), ("Ore", 1)], [("Sheep", 3)]⟩

/-- Whether the action records a new offer when one can be recorded: the
offer regex matches and the captured group parses. -/
def offerParses (a : String) : Bool :=
  match offerGroupRaw a with
  | some raw => (parse_offer (pyStrip raw)).isSome
  | none => false

/-- Test state for the outcome claims: turn at the limit, player 0's
valuation change 20, player 1's change 5 (the spec's example scenario 6). -/
def winState : TAState :=
  let base := mkState none 10
  let gs := { base.game_state with inventory_value :=
    fun p => if p = 0 then ⟨50, 70, 20⟩ else ⟨50, 55, 5⟩ }
  { base with game_state := gs }

/-- Turn-limit test state with equal valuation changes (+12 each). -/
def drawState : TAState :=
  let base := mkState none 10
  let gs := { base.game_state with inventory_value := fun _ => ⟨50, 62, 12⟩ }
  { base with game_state := gs }

/-- Turn-limit test state where player 1 is the larger gainer. -/
def p1WinState : TAState :=
  let base := mkState none 10
  let gs := { base.game_state with inventory_value :=
    fun p => if p = 0 then ⟨50, 55, 5⟩ else ⟨50, 70, 20⟩ }
  { base with game_state := gs }

/-- Test state for C5: the pending offer `po01` requests 3 Sheep but the
responding player 1 only holds 1 Sheep (the spec's example scenario 3). -/
def shortState : TAState :=
  let base := mkState (some ⟨0, 1, po01⟩) 3
  let gs := { base.game_state with player_resources :=
    fun p r => if p = 1 ∧ r = "Sheep" then 1 else 10 }
  { base with game_state := gs }

@[simp]
lemma addObservation_game_state (s : TAState) (i : ℤ) (m : String) :
    (addObservation s i m).game_state = s.game_state := rfl

@[simp]
lemma addObservation_turn (s : TAState) (i : ℤ) (m : String) :
    (addObservation s i m).turn = s.turn := rfl

@[simp]
lemma addObservation_max_turns (s : TAState) (i : ℤ) (m : String) :
    (addObservation s i m).max_turns = s.max_turns := rfl

@[simp]
lemma addObservation_terminated (s : TAState) (i : ℤ) (m : String) :
    (addObservation s i m).terminated = s.terminated := rfl

@[simp]
lemma addObservation_faults (s : TAState) (i : ℤ) (m : String) :
    (addObservation s i m).faults = s.faults := rfl

@[simp]
lemma setInvalidMove_game_state (s : TAState) (ids : List ℤ) (rs : List String) :
    (setInvalidMove s ids rs).game_state = s.game_state := rfl

@[simp]
lemma setInvalidMove_turn (s : TAState) (ids : List ℤ) (rs : List String) :
    (setInvalidMove s ids rs).turn = s.turn := rfl

@[simp]
lemma setInvalidMove_max_turns (s : TAState) (ids : List ℤ) (rs : List String) :
    (setInvalidMove s ids rs).max_turns = s.max_turns := rfl

@[simp]
lemma setInvalidMove_terminated (s : TAState) (ids : List ℤ) (rs : List String) :
    (setInvalidMove s ids rs).terminated = s.terminated := rfl

@[simp]
lemma setInvalidMove_faults (s : TAState) (ids : List ℤ) (rs : List String) :
    (setInvalidMove s ids rs).faults = s.faults ++ [(ids, rs)] := rfl

@[simp]
lemma taStep_game_state (s : TAState) : (taStep s).game_state = s.game_state := rfl

@[simp]
lemma taStep_faults (s : TAState) : (taStep s).faults = s.faults := rfl

@[simp]
lemma taStep_terminated (s : TAState) : (taStep s).terminated = s.terminated := rfl

/-- The turn-limit test only reads the turn counter and the limit. -/
lemma atTurnLimit_congr {s' s : TAState} (h1 : s'.turn = s.turn)
    (h2 : s'.max_turns = s.max_turns) : atTurnLimit s' = atTurnLimit s := by
  unfold atTurnLimit
  rw [h1, h2]

/-- The routine `_check_for_new_offer` never touches the stocks. -/
lemma cfno_player_resources (s : TAState) (pid : ℤ) (a : String) :
    (check_for_new_offer s pid a).game_state.player_resources
      = s.game_state.player_resources := by
  unfold check_for_new_offer
  cases ht : s.terminated with
  | true => simp [ht]
  | false =>
    cases hr : offerGroupRaw a with
    | none => simp [ht, hr]
    | some raw =>
      cases hp : parse_offer (pyStrip raw) with
      | none => simp [ht, hr, hp]
      | some po => simp [ht, hr, hp, addObservation]

/-- The routine `_check_for_new_offer` never records a fault. -/
lemma cfno_faults (s : TAState) (pid : ℤ) (a : String) :
    (check_for_new_offer s pid a).faults = s.faults := by
  unfold check_for_new_offer
  cases ht : s.terminated with
  | true => simp [ht]
  | false =>
    cases hr : offerGroupRaw a with
    | none => simp [ht, hr]
    | some raw =>
      cases hp : parse_offer (pyStrip raw) with
      | none => simp [ht, hr, hp]
      | some po => simp [ht, hr, hp, addObservation]

/-- The routine `_check_for_new_offer` never changes the turn counter. -/
lemma cfno_turn (s : TAState) (pid : ℤ) (a : String) :
    (check_for_new_offer s pid a).turn = s.turn := by
  unfold check_for_new_offer
  cases ht : s.terminated with
  | true => simp [ht]
  | false =>
    cases hr : offerGroupRaw a with
    | none => simp [ht, hr]
    | some raw =>
      cases hp : parse_offer (pyStrip raw) with
      | none => simp [ht, hr, hp]
      | some po => simp [ht, hr, hp, addObservation]

/-- The routine `_check_for_new_offer` never changes the turn limit. -/
lemma cfno_max_turns (s : TAState) (pid : ℤ) (a : String) :
    (check_for_new_offer s pid a).max_turns = s.max_turns := by
  unfold check_for_new_offer
  cases ht : s.terminated with
  | true => simp [ht]
  | false =>
    cases hr : offerGroupRaw a with
    | none => simp [ht, hr]
    | some raw =>
      cases hp : parse_offer (pyStrip raw) with
      | none => simp [ht, hr, hp]
      | some po => simp [ht, hr, hp, addObservation]

/-- The routine `_check_for_new_offer` never sets the terminated flag. -/
lemma cfno_terminated (s : TAState) (pid : ℤ) (a : String) :
    (check_for_new_offer s pid a).terminated = s.terminated := by
  unfold check_for_new_offer
  cases ht : s.terminated with
  | true => simp [ht]
  | false =>
    cases hr : offerGroupRaw a with
    | none => simp [ht, hr]
    | some raw =>
      cases hp : parse_offer (pyStrip raw) with
      | none => simp [ht, hr, hp]
      | some po => simp [ht, hr, hp, addObservation]

/-- When the action's offer search or parse fails, `_check_for_new_offer`
leaves the pending offer unchanged. -/
lemma cfno_offer_unchanged {a : String} (s : TAState) (pid : ℤ)
    (h : offerParses a = false) :
    (check_for_new_offer s pid a).game_state.current_offer
      = s.game_state.current_offer := by
  unfold offerParses at h
  unfold check_for_new_offer
  cases ht : s.terminated with
  | true => simp [ht]
  | false =>
    cases hr : offerGroupRaw a with
    | none => simp [ht, hr]
    | some raw =>
      rw [hr] at h
      cases hp : parse_offer (pyStrip raw) with
      | none => simp [ht, hr, hp]
      | some po =>
        simp [hp] at h

/-- When the episode is live and the action contains a parseable offer,
`_check_for_new_offer` records it, from the acting player to the other. -/
lemma cfno_offer_set {a raw : String} {po : ParsedOffer} (s : TAState) (pid : ℤ)
    (ht : s.terminated = false) (h1 : offerGroupRaw a = some raw)
    (h2 : parse_offer (pyStrip raw) = some po) :
    (check_for_new_offer s pid a).game_state.current_offer
      = some ⟨pid, 1 - pid, po⟩ := by
  unfold check_for_new_offer
  rw [ht, h1]
  simp only [Bool.false_eq_true, if_false, h2]
  rfl

/-- With a pending offer and no accept marker,
`_check_and_execute_existing_offer` returns normally, moves no
resources, and either clears the offer silently (deny) or leaves it
pending and records the invalid-response fault (neither marker). -/
lemma caee_no_accept (s : TAState) (pid : ℤ) (action : String) (c : CurrentOffer)
    (hc : s.game_state.current_offer = some c) (ha : hasAccept action = false) :
    ∃ s2 : TAState, check_and_execute_existing_offer s pid action = .ok s2
      ∧ s2.game_state.player_resources = s.game_state.player_resources
      ∧ s2.game_state.player_values = s.game_state.player_values
      ∧ s2.terminated = s.terminated
      ∧ s2.turn = s.turn
      ∧ s2.max_turns = s.max_turns
      ∧ (hasDeny action = true →
          s2.game_state.current_offer = none ∧ s2.faults = s.faults)
      ∧ (hasDeny action = false →
          s2.game_state.current_offer = s.game_state.current_offer
            ∧ s2.faults = s.faults ++ [([pid],
                ["Player " ++ intStr pid
                  ++ " received a trade offer but neither accepted nor denied it."])]) := by
  unfold check_and_execute_existing_offer
  rw [hc]
  cases hd : hasDeny action with
  | true =>
    simp only [ha, hd, Bool.false_eq_true, if_false, if_true]
    exact ⟨_, rfl, rfl, rfl, rfl, rfl, rfl, fun _ => ⟨rfl, rfl⟩,
      fun hcontra => by simp at hcontra⟩
  | false =>
    simp only [ha, hd, Bool.false_eq_true, if_false]
    exact ⟨_, rfl, rfl, rfl, rfl, rfl, rfl, fun hcontra => by simp at hcontra,
      fun _ => ⟨hc, rfl⟩⟩

/-- Claim C1: The claim fails on the code: with a pending offer whose two
sides are both amply covered (all stocks 10, offer 2 Wheat + 1 Ore for 3
Sheep), the responder's `[Accept]` does not execute any trade — line 220
reads `current_offer["offered_resources"]`, a key the offer dict
recorded at lines 318–322 does not have, so the step raises
`KeyError('offered_resources')` before any check, transfer or valuation
update; even the later `_update_inventory_values` reads the undefined
attribute `self.game_state` (line 419). -/
theorem c1_accept_raises_key_error :
    errOf (stepFull (mkState (some ⟨0, 1, po01⟩) 3) 1 "[Accept]")
      = some (.keyError "offered_resources") := by
  decide

/-- Claim C4: The claim fails on the code: when the turn counter equals the
turn limit, `step` (line 201) calls `self._determine_winner`, a name the
class does not define (the routine is spelled `_determine_winnner`,
line 392), so the step raises `AttributeError` instead of resolving the
outcome; below the limit the resolution path is indeed never entered.
The defined-but-unreachable routine itself does implement the claimed
comparison: equal changes give a draw, otherwise the strictly larger
gainer wins. -/
theorem c4_turn_limit_attribute_error :
    errOf (stepFull winState 0 "hello") = some (.attributeError "_determine_winner")
      ∧ (okState (stepFull (mkState none 3) 0 "hello")).map (fun t => t.outcome)
          = some none
      ∧ (determine_winnner winState).outcome
          = some (.winners [0] "Player 0 won by having a larger gain in inventory value.")
      ∧ (determine_winnner p1WinState).outcome
          = some (.winners [1] "Player 1 won by having a larger gain in inventory value.")
      ∧ (determine_winnner drawState).outcome
          = some (.draw "Same change in invetory value for all players. Draw.") := by
  refine ⟨by decide, by decide, by decide, by decide, by decide⟩

/-- Claim C5: The claim fails on the code: with the responder 1 short on
the requested 3 Sheep, `[Accept]` raises `KeyError('offered_resources')`
at line 220 before the sufficiency checks run, so no fault naming the
short side is ever recorded — the fault logic of lines 252–266
(embedded as `acceptBranchRest`) is unreachable from `step`, although on
its own it would leave the stocks untouched and record exactly the short
side, as the remaining conjuncts evaluate. -/
theorem c5_insufficient_accept_raises :
    errOf (stepFull shortState 1 "[Accept]") = some (.keyError "offered_resources")
      ∧ (okState (acceptBranchRest shortState 1 0 po01.offered_items po01.requested_items)).map
          (fun t => t.faults)
          = some [([1], ["Player 1 accepted a traded without having enough resources"])]
      ∧ (okState (acceptBranchRest shortState 1 0 po01.offered_items po01.requested_items)).map
          (fun t => t.game_state.player_resources)
          = some shortState.game_state.player_resources := by
  refine ⟨by decide, by decide, rfl⟩

/-- Claim C2, counterexample: A pending offer exists, and the responding
text contains neither marker but does contain an offer-shaped substring:
the step still records a brand-new offer (from player 1, the opposite
direction), overwriting the pending one — offer-grammar matching is not
skipped while an offer is pending. -/
theorem c2_counterexample :
    hasAccept "hmm [Offer] I give 1 Wheat; You give 1 Ore. ok" = false
      ∧ hasDeny "hmm [Offer] I give 1 Wheat; You give 1 Ore. ok" = false
      ∧ (mkState (some ⟨0, 1, po01⟩) 3).game_state.current_offer = some ⟨0, 1, po01⟩
      ∧ (okState (stepFull (mkState (some ⟨0, 1, po01⟩) 3) 1
            "hmm [Offer] I give 1 Wheat; You give 1 Ore. ok")).map
          (fun t => t.game_state.current_offer)
          = some (some ⟨1, 0, ⟨[("Wheat", 1)], [("Ore", 1)]⟩⟩)
      ∧ (CurrentOffer.mk 0 1 po01) ≠ ⟨1, 0, ⟨[("Wheat", 1)], [("Ore", 1)]⟩⟩ := by
  refine ⟨by decide, by decide, by decide, by decide, by decide⟩

/-- Claim C3, counterexample: An accept response to a pending offer does
not clear it: the step raises `KeyError('offered_resources')` at
line 220, and nothing executed before that line (only the action log)
touches `current_offer`, so the offer is still pending afterwards. -/
theorem c3_counterexample :
    errOf (stepFull (mkState (some ⟨0, 1, po01⟩) 4) 1 "[Accept] deal.")
        = some (.keyError "offered_resources")
      ∧ (mkState (some ⟨0, 1, po01⟩) 4).game_state.current_offer ≠ none := by
  refine ⟨by decide, by decide⟩

/-- Claim C10, counterexample: The proposer (player 0) sends `[Accept]` on
their own pending offer: the engine enters the accept branch without any
check that the sender is the offer's recipient, and the branch raises
`KeyError('offered_resources')` — so the requested-side sufficiency
check and the requested-side transfer are applied to no one at all,
contradicting the claim that they are applied to the sender. -/
theorem c10_counterexample :
    (mkState (some ⟨0, 1, po01⟩) 5).game_state.current_offer = some ⟨0, 1, po01⟩
      ∧ errOf (stepFull (mkState (some ⟨0, 1, po01⟩) 5) 0 "[Accept]")
          = some (.keyError "offered_resources") := by
  refine ⟨by decide, by decide⟩

/-- Claim C10, amended: While an offer is pending, an action containing
the accept marker is handled identically for every sender — the engine
never compares the acting player with the offer's recipient, and in
particular the proposer can trigger the accept branch on their own offer
— but no requested-side check or transfer is applied to anyone: for
every sender the accept branch raises `KeyError('offered_resources')`
first. -/
theorem c10_accept_sender_blind (s : TAState) (pid : ℤ) (action : String)
    (c : CurrentOffer) (hc : s.game_state.current_offer = some c)
    (ha : hasAccept action = true) :
    stepFull s pid action = .error (.keyError "offered_resources") := by
  have hce : check_and_execute_existing_offer (addObservation s pid action) pid action
      = .error (.keyError "offered_resources") := by
    unfold check_and_execute_existing_offer
    rw [addObservation_game_state, hc]
    simp only [ha, if_true]
  unfold stepFull
  rw [hce]

/-- Closed witness for `c10_accept_sender_blind`: the proposer player 0
accepting their own pending offer. -/
theorem c10_accept_sender_blind_witness :
    (mkState (some ⟨0, 1, po01⟩) 6).game_state.current_offer = some ⟨0, 1, po01⟩
      ∧ hasAccept "sure, [Accept]!" = true
      ∧ stepFull (mkState (some ⟨0, 1, po01⟩) 6) 0 "sure, [Accept]!"
          = .error (.keyError "offered_resources") :=
  ⟨by decide, by decide,
    c10_accept_sender_blind (mkState (some ⟨0, 1, po01⟩) 6) 0 "sure, [Accept]!"
      ⟨0, 1, po01⟩ (by decide) (by decide)⟩

/-- Claim C2, amended: Offer-grammar matching is **not** skipped while an
offer is pending: whenever the pending-offer response handling returns
(the action has no accept marker — deny and invalid responses alike),
the episode is live, the action is not at the turn limit, and the action
contains a parseable offer substring, the step records a brand-new offer
from the acting player, overwriting the pending one. -/
theorem c2_offer_recorded_while_pending (s : TAState) (pid : ℤ)
    (action raw : String) (c : CurrentOffer) (po : ParsedOffer)
    (hc : s.game_state.current_offer = some c)
    (ha : hasAccept action = false)
    (ht : s.terminated = false)
    (h1 : offerGroupRaw action = some raw)
    (h2 : parse_offer (pyStrip raw) = some po)
    (hl : atTurnLimit s = false) :
    (okState (stepFull s pid action)).map (fun t => t.game_state.current_offer)
      = some (some ⟨pid, 1 - pid, po⟩) := by
  obtain ⟨s2, hce, _hres, _hval, hterm, hturn, hmax, _hdt, _hdf⟩ :=
    caee_no_accept (addObservation s pid action) pid action c
      (by rw [addObservation_game_state]; exact hc) ha
  have h3offer : (check_for_new_offer s2 pid action).game_state.current_offer
      = some ⟨pid, 1 - pid, po⟩ :=
    cfno_offer_set s2 pid (by rw [hterm, addObservation_terminated, ht]) h1 h2
  have hlim : atTurnLimit (check_for_new_offer s2 pid action) = false := by
    rw [atTurnLimit_congr (s := s)
      (by rw [cfno_turn, hturn, addObservation_turn])
      (by rw [cfno_max_turns, hmax, addObservation_max_turns]), hl]
  unfold stepFull
  rw [hce]
  simp only [hlim, Bool.false_eq_true, if_false, okState, Except.toOption,
    Option.map, taStep_game_state, h3offer]

/-- Closed witness for `c2_offer_recorded_while_pending`: a pending offer
from player 0, and player 1 answers with neither marker but an offer
substring. -/
theorem c2_offer_recorded_while_pending_witness :
    (mkState (some ⟨0, 1, po01⟩) 3).game_state.current_offer = some ⟨0, 1, po01⟩
      ∧ hasAccept "hmm [Offer] I give 1 Wheat; You give 1 Ore. ok" = false
      ∧ (mkState (some ⟨0, 1, po01⟩) 3).terminated = false
      ∧ offerGroupRaw "hmm [Offer] I give 1 Wheat; You give 1 Ore. ok"
          = some " I give 1 Wheat; You give 1 Ore"
      ∧ parse_offer (pyStrip " I give 1 Wheat; You give 1 Ore")
          = some ⟨[("Wheat", 1)], [("Ore", 1)]⟩
      ∧ atTurnLimit (mkState (some ⟨0, 1, po01⟩) 3) = false
      ∧ (okState (stepFull (mkState (some ⟨0, 1, po01⟩) 3) 1
            "hmm [Offer] I give 1 Wheat; You give 1 Ore. ok")).map
          (fun t => t.game_state.current_offer)
          = some (some ⟨1, 0, ⟨[("Wheat", 1)], [("Ore", 1)]⟩⟩) :=
  ⟨by decide, by decide, by decide, by decide, by decide, by decide,
    c2_offer_recorded_while_pending (mkState (some ⟨0, 1, po01⟩) 3) 1
      "hmm [Offer] I give 1 Wheat; You give 1 Ore. ok"
      " I give 1 Wheat; You give 1 Ore" ⟨0, 1, po01⟩
      ⟨[("Wheat", 1)], [("Ore", 1)]⟩
      (by decide) (by decide) (by decide) (by decide) (by decide) (by decide)⟩

/-- Claim C3, amended: Only a deny response clears the pending offer: a
step whose action contains the deny marker (and no accept marker, which
takes priority and raises) and records no new offer ends with
`current_offer = None` and the stocks untouched.  An accept response
never reaches any clearing code — see the counterexample, where the step
raises `KeyError` and the offer remains pending. -/
theorem c3_deny_clears_offer (s : TAState) (pid : ℤ) (action : String)
    (c : CurrentOffer)
    (hc : s.game_state.current_offer = some c)
    (ha : hasAccept action = false)
    (hd : hasDeny action = true)
    (hp : offerParses action = false)
    (hl : atTurnLimit s = false) :
    (okState (stepFull s pid action)).map (fun t => t.game_state.current_offer)
        = some none
      ∧ (okState (stepFull s pid action)).map (fun t => t.game_state.player_resources)
          = some s.game_state.player_resources := by
  obtain ⟨s2, hce, hres, _hval, hterm, hturn, hmax, hdt, _hdf⟩ :=
    caee_no_accept (addObservation s pid action) pid action c
      (by rw [addObservation_game_state]; exact hc) ha
  obtain ⟨hoff2, _⟩ := hdt hd
  have h3offer : (check_for_new_offer s2 pid action).game_state.current_offer
      = none := by
    rw [cfno_offer_unchanged s2 pid hp]
    exact hoff2
  have h3res : (check_for_new_offer s2 pid action).game_state.player_resources
      = s.game_state.player_resources := by
    rw [cfno_player_resources, hres, addObservation_game_state]
  have hlim : atTurnLimit (check_for_new_offer s2 pid action) = false := by
    rw [atTurnLimit_congr (s := s)
      (by rw [cfno_turn, hturn, addObservation_turn])
      (by rw [cfno_max_turns, hmax, addObservation_max_turns]), hl]
  constructor
  · unfold stepFull
    rw [hce]
    simp only [hlim, Bool.false_eq_true, if_false, okState, Except.toOption,
      Option.map, taStep_game_state, h3offer]
  · unfold stepFull
    rw [hce]
    simp only [hlim, Bool.false_eq_true, if_false, okState, Except.toOption,
      Option.map, taStep_game_state, h3res]

/-- Closed witness for `c3_deny_clears_offer`: the spec's example
scenario 4, player 1 denying with "no thanks [Deny]". -/
theorem c3_deny_clears_offer_witness :
    (mkState (some ⟨0, 1, po01⟩) 3).game_state.current_offer = some ⟨0, 1, po01⟩
      ∧ hasAccept "no thanks [Deny]" = false
      ∧ hasDeny "no thanks [Deny]" = true
      ∧ offerParses "no thanks [Deny]" = false
      ∧ atTurnLimit (mkState (some ⟨0, 1, po01⟩) 3) = false
      ∧ (okState (stepFull (mkState (some ⟨0, 1, po01⟩) 3) 1 "no thanks [Deny]")).map
            (fun t => t.game_state.current_offer) = some none
      ∧ (okState (stepFull (mkState (some ⟨0, 1, po01⟩) 3) 1 "no thanks [Deny]")).map
            (fun t => t.game_state.player_resources)
          = some (mkState (some ⟨0, 1, po01⟩) 3).game_state.player_resources :=
  ⟨by decide, by decide, by decide, by decide, by decide,
    (c3_deny_clears_offer (mkState (some ⟨0, 1, po01⟩) 3) 1 "no thanks [Deny]"
      ⟨0, 1, po01⟩ (by decide) (by decide) (by decide) (by decide) (by decide)).1,
    (c3_deny_clears_offer (mkState (some ⟨0, 1, po01⟩) 3) 1 "no thanks [Deny]"
      ⟨0, 1, po01⟩ (by decide) (by decide) (by decide) (by decide) (by decide)).2⟩

/-- Claim C8: With a pending offer and a response containing neither
marker, the step returns normally (the fault does not abort the engine:
the terminated flag is unchanged), moves no resources, and records
exactly one structured fault against the responding player with the
source's human-readable reason string. -/
theorem c8_invalid_response_fault (s : TAState) (pid : ℤ) (action : String)
    (c : CurrentOffer)
    (hc : s.game_state.current_offer = some c)
    (ha : hasAccept action = false)
    (hd : hasDeny action = false)
    (hl : atTurnLimit s = false) :
    (okState (stepFull s pid action)).map (fun t => t.faults)
        = some (s.faults ++ [([pid],
            ["Player " ++ intStr pid
              ++ " received a trade offer but neither accepted nor denied it."])])
      ∧ (okState (stepFull s pid action)).map
            (fun t => t.game_state.player_resources)
          = some s.game_state.player_resources
      ∧ (okState (stepFull s pid action)).map (fun t => t.terminated)
          = some s.terminated := by
  obtain ⟨s2, hce, hres, _hval, hterm, hturn, hmax, _hdt, hdf⟩ :=
    caee_no_accept (addObservation s pid action) pid action c
      (by rw [addObservation_game_state]; exact hc) ha
  obtain ⟨_hoff2, hfa2⟩ := hdf hd
  have h3f : (check_for_new_offer s2 pid action).faults
      = s.faults ++ [([pid],
          ["Player " ++ intStr pid
            ++ " received a trade offer but neither accepted nor denied it."])] := by
    rw [cfno_faults, hfa2, addObservation_faults]
  have h3res : (check_for_new_offer s2 pid action).game_state.player_resources
      = s.game_state.player_resources := by
    rw [cfno_player_resources, hres, addObservation_game_state]
  have h3term : (check_for_new_offer s2 pid action).terminated = s.terminated := by
    rw [cfno_terminated, hterm, addObservation_terminated]
  have hlim : atTurnLimit (check_for_new_offer s2 pid action) = false := by
    rw [atTurnLimit_congr (s := s)
      (by rw [cfno_turn, hturn, addObservation_turn])
      (by rw [cfno_max_turns, hmax, addObservation_max_turns]), hl]
  refine ⟨?_, ?_, ?_⟩ <;> (unfold stepFull; rw [hce])
  · simp only [hlim, Bool.false_eq_true, if_false, okState, Except.toOption,
      Option.map, taStep_faults, h3f]
  · simp only [hlim, Bool.false_eq_true, if_false, okState, Except.toOption,
      Option.map, taStep_game_state, h3res]
  · simp only [hlim, Bool.false_eq_true, if_false, okState, Except.toOption,
      Option.map, taStep_terminated, h3term]

/-- Closed witness for `c8_invalid_response_fault`: player 1 replies to a
pending offer with plain chat. -/
theorem c8_invalid_response_fault_witness :
    (mkState (some ⟨0, 1, po01⟩) 3).game_state.current_offer = some ⟨0, 1, po01⟩
      ∧ hasAccept "let me think about it" = false
      ∧ hasDeny "let me think about it" = false
      ∧ atTurnLimit (mkState (some ⟨0, 1, po01⟩) 3) = false
      ∧ (okState (stepFull (mkState (some ⟨0, 1, po01⟩) 3) 1 "let me think about it")).map
            (fun t => t.faults)
          = some ([([1],
              ["Player 1 received a trade offer but neither accepted nor denied it."])]) :=
  ⟨by decide, by decide, by decide, by decide, by
    have h := (c8_invalid_response_fault (mkState (some ⟨0, 1, po01⟩) 3) 1
      "let me think about it" ⟨0, 1, po01⟩ (by decide) (by decide) (by decide)
      (by decide)).1
    simpa using h⟩

/-- One debit/credit pair preserves the two involved players' combined
holding of every resource (also in the degenerate self-trade case, where
the debit and credit cancel). -/
lemma applyTransfer_pair_sum (items : List (String × ℤ)) (res : ℤ → String → ℤ)
    (f t : ℤ) (r : String) :
    applyTransfer res f t items f r + applyTransfer res f t items t r
      = res f r + res t r := by
  induction items generalizing res with
  | nil => rfl
  | cons p rest ih =>
    obtain ⟨r0, q⟩ := p
    show applyTransfer
        (updRes (updRes res f r0 (res f r0 - q)) t r0
          ((updRes res f r0 (res f r0 - q)) t r0 + q)) f t rest f r
        + applyTransfer
        (updRes (updRes res f r0 (res f r0 - q)) t r0
          ((updRes res f r0 (res f r0 - q)) t r0 + q)) f t rest t r
      = res f r + res t r
    rw [ih]
    by_cases h1 : r = r0
    · subst h1
      by_cases h2 : f = t
      · subst h2
        simp [updRes]
      · have h2' : ¬t = f := fun h => h2 h.symm
        simp [updRes, h2, h2']
    · simp [updRes, h1]

/-- Claim C6: The trade execution of lines 237–242 conserves every
resource across the two trading players: for each resource, the sum of
the proposer's and the acceptor's stock is the same before and after
`executeTrade`, whatever the offered and requested quantity lists are. -/
theorem c6_trade_conservation (res : ℤ → String → ℤ) (proposer acceptor : ℤ)
    (offered requested : List (String × ℤ)) (r : String) :
    executeTrade res proposer acceptor offered requested proposer r
        + executeTrade res proposer acceptor offered requested acceptor r
      = res proposer r + res acceptor r := by
  unfold executeTrade
  have h2 := applyTransfer_pair_sum requested
    (applyTransfer res proposer acceptor offered) acceptor proposer r
  have h1 := applyTransfer_pair_sum offered res proposer acceptor r
  linarith

/-- A draw `random.randint(a, b)` always lands in `[a, b]`. -/
lemma randint_bounds (a b : ℤ) (v : ℕ) (h : a ≤ b) :
    a ≤ randint a b v ∧ randint a b v ≤ b := by
  unfold randint
  have h1 : 0 ≤ (v : ℤ) % (b - a + 1) := Int.emod_nonneg _ (by omega)
  have h2 : (v : ℤ) % (b - a + 1) < b - a + 1 := Int.emod_lt_of_pos _ (by omega)
  omega

/-- A resource name's draw position is below 5. -/
lemma resIdx_lt {r : String} (hr : r ∈ resource_names) : resIdx r < 5 := by
  have h5 : r = "Wheat" ∨ r = "Wood" ∨ r = "Sheep" ∨ r = "Brick" ∨ r = "Ore" := by
    simpa [resource_names] using hr
  rcases h5 with h | h | h | h | h <;> subst h <;> decide

/-- Every freshly drawn stock count is in `[5, 25]`. -/
lemma resetResources_bounds (g : ℕ → ℕ) (p : ℤ) (r : String)
    (hp : p = 0 ∨ p = 1) (hr : r ∈ resource_names) :
    5 ≤ resetResources g p r ∧ resetResources g p r ≤ 25 := by
  unfold resetResources
  rw [if_pos ⟨hp, hr⟩]
  exact randint_bounds 5 25 _ (by norm_num)

/-- The five base values, evaluated. -/
lemma base_values_eval :
    base_values "Wheat" = 5 ∧ base_values "Wood" = 10 ∧ base_values "Sheep" = 15
      ∧ base_values "Brick" = 25 ∧ base_values "Ore" = 40 := by
  decide

/-- Boxing of a `randint` draw by outer bounds on both sides. -/
lemma randint_box (a b lo hi lo2 hi2 : ℤ) (v : ℕ) (hab : a ≤ b) (h1 : lo ≤ a)
    (h2 : b ≤ hi) (h3 : lo2 ≤ a) (h4 : b ≤ hi2) :
    lo ≤ randint a b v ∧ randint a b v ≤ hi
      ∧ lo2 ≤ randint a b v ∧ randint a b v ≤ hi2 := by
  obtain ⟨x, y⟩ := randint_bounds a b v hab
  exact ⟨by omega, by omega, by omega, by omega⟩

/-- Every freshly drawn private value is in `[5, 40]` and inside the
truncated ±20% band around the resource's base value. -/
lemma resetValues_bounds (g : ℕ → ℕ) (p : ℤ) (r : String)
    (hp : p = 0 ∨ p = 1) (hr : r ∈ resource_names) :
    5 ≤ resetValues g p r ∧ resetValues g p r ≤ 40
      ∧ base_values r - variationOf (base_values r) ≤ resetValues g p r
      ∧ resetValues g p r ≤ base_values r + variationOf (base_values r) := by
  have h5 : r = "Wheat" ∨ r = "Wood" ∨ r = "Sheep" ∨ r = "Brick" ∨ r = "Ore" := by
    simpa [resource_names] using hr
  unfold resetValues
  rw [if_pos ⟨hp, hr⟩]
  obtain ⟨e1, e2, e3, e4, e5⟩ := base_values_eval
  rcases h5 with h | h | h | h | h <;> subst h <;>
    norm_num [e1, e2, e3, e4, e5, variationOf] <;>
    (apply randint_box <;> norm_num)

/-- The stock draws depend only on the first ten raw draws. -/
lemma resetResources_congr {g g' : ℕ → ℕ} (h : ∀ k, k < 20 → g k = g' k) :
    resetResources g = resetResources g' := by
  funext p r
  unfold resetResources
  by_cases hc : (p = 0 ∨ p = 1) ∧ r ∈ resource_names
  · rw [if_pos hc, if_pos hc]
    obtain ⟨hp, hr⟩ := hc
    have h5 : resIdx r < 5 := resIdx_lt hr
    have hidx : p.toNat * 5 + resIdx r < 20 := by
      rcases hp with hp0 | hp0 <;> subst hp0 <;> simp <;> omega
    rw [h _ hidx]
  · rw [if_neg hc, if_neg hc]

/-- The value draws depend only on raw draws 10–19. -/
lemma resetValues_congr {g g' : ℕ → ℕ} (h : ∀ k, k < 20 → g k = g' k) :
    resetValues g = resetValues g' := by
  funext p r
  unfold resetValues
  by_cases hc : (p = 0 ∨ p = 1) ∧ r ∈ resource_names
  · rw [if_pos hc, if_pos hc]
    obtain ⟨hp, hr⟩ := hc
    have h5 : resIdx r < 5 := resIdx_lt hr
    have hidx : 10 + p.toNat * 5 + resIdx r < 20 := by
      rcases hp with hp0 | hp0 <;> subst hp0 <;> simp <;> omega
    rw [h _ hidx]
  · rw [if_neg hc, if_neg hc]

/-- Claim C9: After reset, every stock count of both players is in
`[5, 25]`; every private per-resource value is in `[5, 40]` and within
the integer-truncated ±20% band around the resource's base value; and
the episode is a function of the seeded generator's first twenty raw
draws alone, so two resets from the same seed — which replays the same
raw-draw stream — produce identical stocks and private values. -/
theorem c9_reset_bounds_and_determinism :
    (∀ (g : ℕ → ℕ) (p : ℤ) (r : String), (p = 0 ∨ p = 1) → r ∈ resource_names →
        (5 ≤ (resetGameState g).player_resources p r
          ∧ (resetGameState g).player_resources p r ≤ 25)
        ∧ (5 ≤ (resetGameState g).player_values p r
          ∧ (resetGameState g).player_values p r ≤ 40
          ∧ base_values r - variationOf (base_values r)
              ≤ (resetGameState g).player_values p r
          ∧ (resetGameState g).player_values p r
              ≤ base_values r + variationOf (base_values r)))
      ∧ (∀ g g' : ℕ → ℕ, (∀ k, k < 20 → g k = g' k) →
          resetGameState g = resetGameState g') := by
  constructor
  · intro g p r hp hr
    exact ⟨resetResources_bounds g p r hp hr, resetValues_bounds g p r hp hr⟩
  · intro g g' h
    unfold resetGameState
    rw [resetResources_congr h, resetValues_congr h]

/-- Closed witness for `c9_reset_bounds_and_determinism`: the all-zero
draw stream, player 0, Wheat; and a pair of streams that agree on the
first twenty draws but differ later. -/
theorem c9_reset_bounds_and_determinism_witness :
    ((0 : ℤ) = 0 ∨ (0 : ℤ) = 1)
      ∧ "Wheat" ∈ resource_names
      ∧ (5 ≤ (resetGameState fun _ => 0).player_resources 0 "Wheat"
          ∧ (resetGameState fun _ => 0).player_resources 0 "Wheat" ≤ 25)
      ∧ (5 ≤ (resetGameState fun _ => 0).player_values 0 "Wheat"
          ∧ (resetGameState fun _ => 0).player_values 0 "Wheat" ≤ 40
          ∧ base_values "Wheat" - variationOf (base_values "Wheat")
              ≤ (resetGameState fun _ => 0).player_values 0 "Wheat"
          ∧ (resetGameState fun _ => 0).player_values 0 "Wheat"
              ≤ base_values "Wheat" + variationOf (base_values "Wheat"))
      ∧ (∀ k, k < 20 → (fun _ => 0) k = (fun n => if n < 20 then 0 else 9) k)
      ∧ resetGameState (fun _ => 0) = resetGameState (fun n => if n < 20 then 0 else 9) :=
  ⟨by decide, by decide,
    (c9_reset_bounds_and_determinism.1 (fun _ => 0) 0 "Wheat" (by decide) (by decide)).1,
    (c9_reset_bounds_and_determinism.1 (fun _ => 0) 0 "Wheat" (by decide) (by decide)).2,
    by decide,
    c9_reset_bounds_and_determinism.2 (fun _ => 0) (fun n => if n < 20 then 0 else 9)
      (by decide)⟩

/-- Characters survive `dropWhile`. -/
lemma mem_of_mem_dropWS {c : Char} {l : List Char} (h : c ∈ dropWS l) : c ∈ l :=
  (List.dropWhile_sublist isPyWS (l := l)).mem h

/-- If a character list contains no `y` (case-insensitively), the
`;\s*You give\s*` separator cannot match at its head: the literal
`You give` would need a leading `y`. -/
lemma sepYouGive_eq_none {l : List Char} (h : ∀ c ∈ l, c.toLower ≠ 'y') :
    sepYouGive l = none := by
  unfold sepYouGive
  cases l with
  | nil => rfl
  | cons c0 rest =>
    by_cases hc : c0 = ';'
    · subst hc
      have hpre : isPreCI "you give".data (dropWS rest) = false := by
        cases hd : dropWS rest with
        | nil => rfl
        | cons c1 cs1 =>
          have hm : c1 ∈ rest := mem_of_mem_dropWS (hd ▸ List.mem_cons_self c1 cs1)
          have hy : c1.toLower ≠ 'y' := h c1 (List.mem_cons_of_mem _ hm)
          have hyg : "you give".data = 'y' :: "ou give".data := rfl
          rw [hyg]
          simp only [isPreCI, Bool.and_eq_false_iff]
          left
          simpa using hy
      simp only [hpre, Bool.false_eq_true, if_false]
    · cases rest with
      | nil => simp [hc]
      | cons c2 cs2 => simp [hc]

/-- With no `y` in the text, `splitScan` over the `You give` separator
walks the whole list into a single piece. -/
lemma splitScan_sepYouGive_single :
    ∀ (l : List Char) (acc : List Char) (fuel : ℕ), l.length ≤ fuel →
      (∀ c ∈ l, c.toLower ≠ 'y') →
      splitScan sepYouGive fuel acc l = [acc.reverse ++ l] := by
  intro l
  induction l with
  | nil =>
    intro acc fuel _ _
    cases fuel <;> simp [splitScan]
  | cons c cs ih =>
    intro acc fuel hfuel h
    cases fuel with
    | zero => simp at hfuel
    | succ f =>
      have hsep : sepYouGive (c :: cs) = none := sepYouGive_eq_none h
      have hrec := ih (c :: acc) f (by simpa using hfuel)
        (fun x hx => h x (List.mem_cons_of_mem _ hx))
      simp only [splitScan, hsep, hrec]
      simp

/-- With no `y` in the string, the `You give` split returns the whole
string as its only part. -/
lemma splitYouGive_single (s : String) (h : ∀ c ∈ s.data, c.toLower ≠ 'y') :
    splitYouGive s = [s] := by
  unfold splitYouGive
  rw [splitScan_sepYouGive_single s.data [] (s.data.length + 1) (by omega) h]
  rfl

/-- Characters of the collapsed text are spaces or original characters. -/
lemma mem_collapseWS {c : Char} : ∀ {l : List Char}, c ∈ collapseWS l →
    c = ' ' ∨ c ∈ l := by
  intro l
  induction l with
  | nil => intro h; simp [collapseWS] at h
  | cons c0 cs ih =>
    intro h
    unfold collapseWS at h
    by_cases hws : (isPyWS c0 && isPyWS (cs.headD 'x')) = true
    · rw [if_pos hws] at h
      rcases ih h with h1 | h1
      · exact Or.inl h1
      · exact Or.inr (List.mem_cons_of_mem _ h1)
    · rw [if_neg hws] at h
      rcases List.mem_cons.mp h with h1 | h1
      · by_cases hw : isPyWS c0 = true
        · rw [if_pos hw] at h1
          exact Or.inl h1
        · rw [if_neg hw] at h1
          exact Or.inr (h1 ▸ List.mem_cons_self _ _)
      · rcases ih h1 with h2 | h2
        · exact Or.inl h2
        · exact Or.inr (List.mem_cons_of_mem _ h2)

/-- Characters of the stripped text come from the original. -/
lemma mem_pyStripList {c : Char} {l : List Char} (h : c ∈ pyStripList l) :
    c ∈ l := by
  unfold pyStripList at h
  rw [List.mem_reverse] at h
  have h1 := (List.dropWhile_sublist isPyWS).mem h
  rw [List.mem_reverse] at h1
  exact (List.dropWhile_sublist isPyWS).mem h1

/-- Characters of the whitespace-normalized string are spaces or original
characters. -/
lemma mem_normWS {c : Char} {s : String} (h : c ∈ (normWS s).data) :
    c = ' ' ∨ c ∈ s.data := by
  unfold normWS at h
  rcases mem_collapseWS h with h1 | h1
  · exact Or.inl h1
  · exact Or.inr (mem_pyStripList h1)

/-- Decimal digit characters are never a `y`. -/
lemma natDigitsAux_noY : ∀ (fuel n : ℕ) (acc : List Char),
    (∀ c ∈ acc, c.toLower ≠ 'y') →
    ∀ c ∈ natDigitsAux fuel n acc, c.toLower ≠ 'y' := by
  intro fuel
  induction fuel with
  | zero => intro n acc hacc; exact hacc
  | succ f ih =>
    intro n acc hacc c hc
    unfold natDigitsAux at hc
    have hm : n % 10 < 10 := Nat.mod_lt _ (by norm_num)
    have hd : (Char.ofNat (48 + n % 10)).toLower ≠ 'y' := by
      set m := n % 10 with hmdef
      interval_cases m <;> decide
    have hacc2 : ∀ x ∈ Char.ofNat (48 + n % 10) :: acc, x.toLower ≠ 'y' := by
      intro x hx
      rcases List.mem_cons.mp hx with h1 | h1
      · exact h1 ▸ hd
      · exact hacc x h1
    by_cases hn : n < 10
    · rw [if_pos hn] at hc
      exact hacc2 c hc
    · rw [if_neg hn] at hc
      exact ih (n / 10) _ hacc2 c hc

/-- The rendering `str(i)` contains only digits and a possible minus sign — never a `y`. -/
lemma intStr_noY (i : ℤ) : ∀ c ∈ (intStr i).data, c.toLower ≠ 'y' := by
  intro c hc
  unfold intStr at hc
  by_cases hneg : i < 0
  · rw [if_pos hneg] at hc
    rw [String.data_append] at hc
    rcases List.mem_append.mp hc with h1 | h1
    · have : c = '-' := by simpa using h1
      subst this
      decide
    · exact natDigitsAux_noY _ _ [] (by intro x hx; simp at hx) c h1
  · rw [if_neg hneg] at hc
    exact natDigitsAux_noY _ _ [] (by intro x hx; simp at hx) c hc

/-- Characters of a comma-space join come from the separator or from one
of the pieces. -/
lemma mem_joinCommaSep {c : Char} : ∀ {L : List String},
    c ∈ (joinCommaSep L).data → (c = ',' ∨ c = ' ') ∨ ∃ x ∈ L, c ∈ x.data := by
  intro L
  induction L with
  | nil => intro h; simp [joinCommaSep] at h
  | cons x xs ih =>
    intro h
    cases xs with
    | nil =>
      exact Or.inr ⟨x, List.mem_cons_self _ _, h⟩
    | cons y ys =>
      unfold joinCommaSep at h
      rw [String.data_append, String.data_append] at h
      rcases List.mem_append.mp h with h1 | h1
      · rcases List.mem_append.mp h1 with h2 | h2
        · exact Or.inr ⟨x, List.mem_cons_self _ _, h2⟩
        · have : c = ',' ∨ c = ' ' := by simpa using h2
          exact Or.inl this
      · rcases ih h1 with h2 | ⟨z, hz, hcz⟩
        · exact Or.inl h2
        · exact Or.inr ⟨z, List.mem_cons_of_mem _ hz, hcz⟩

/-- None of the five resource names contains a `y`. -/
lemma resource_name_noY {r : String} (hr : r ∈ resource_names) :
    ∀ c ∈ r.data, c.toLower ≠ 'y' := by
  have h5 : r = "Wheat" ∨ r = "Wood" ∨ r = "Sheep" ∨ r = "Brick" ∨ r = "Ore" := by
    simpa [resource_names] using hr
  rcases h5 with h | h | h | h | h <;> subst h <;> decide

/-- A rendered item list over the five resource names contains no `y`. -/
lemma renderItems_noY {l : List (String × ℤ)}
    (h : ∀ p ∈ l, p.1 ∈ resource_names) :
    ∀ c ∈ (renderItems l).data, c.toLower ≠ 'y' := by
  intro c hc
  unfold renderItems at hc
  rcases mem_joinCommaSep hc with h1 | ⟨x, hx, hcx⟩
  · rcases h1 with h2 | h2 <;> subst h2 <;> decide
  · rcases List.mem_map.mp hx with ⟨p, hp, hpx⟩
    subst hpx
    rw [String.data_append, String.data_append] at hcx
    rcases List.mem_append.mp hcx with h2 | h2
    · rcases List.mem_append.mp h2 with h3 | h3
      · exact intStr_noY p.2 c h3
      · have : c = ' ' := by simpa using h3
        subst this
        decide
    · exact resource_name_noY (h p hp) c h2

/-- The `_offer_to_str` output contains no `y` when the offer only names the
five resources. -/
lemma offer_to_str_noY {o : ParsedOffer}
    (h1 : ∀ p ∈ o.offered_items, p.1 ∈ resource_names)
    (h2 : ∀ p ∈ o.requested_items, p.1 ∈ resource_names) :
    ∀ c ∈ (offer_to_str o).data, c.toLower ≠ 'y' := by
  intro c hc
  unfold offer_to_str at hc
  rw [String.data_append, String.data_append, String.data_append] at hc
  rcases List.mem_append.mp hc with h3 | h3
  · rcases List.mem_append.mp h3 with h4 | h4
    · rcases List.mem_append.mp h4 with h5 | h5
      · exact (by decide : ∀ x ∈ "Offered items: ".data, x.toLower ≠ 'y') c h5
      · exact renderItems_noY h1 c h5
    · exact (by decide : ∀ x ∈ "; Requested items: ".data, x.toLower ≠ 'y') c h4
  · exact renderItems_noY h2 c h3

/-- The dict `dictInsert` builds only ever holds keys that were inserted. -/
lemma dictInsert_names {P : String → Prop} :
    ∀ {acc : List (String × ℤ)} {k : String} {v : ℤ},
    (∀ p ∈ acc, P p.1) → P k → ∀ p ∈ dictInsert acc k v, P p.1 := by
  intro acc
  induction acc with
  | nil =>
    intro k v _ hk p hp
    simp [dictInsert] at hp
    subst hp
    exact hk
  | cons a rest ih =>
    intro k v hacc hk p hp
    unfold dictInsert at hp
    by_cases he : a.1 = k
    · rw [if_pos he] at hp
      rcases List.mem_cons.mp hp with h1 | h1
      · rw [h1]
        exact hacc a (List.mem_cons_self _ _)
      · exact hacc p (List.mem_cons_of_mem _ h1)
    · rw [if_neg he] at hp
      rcases List.mem_cons.mp hp with h1 | h1
      · rw [h1]
        exact hacc a (List.mem_cons_self _ _)
      · exact ih (fun q hq => hacc q (List.mem_cons_of_mem _ hq)) hk p h1

/-- Every key of a successfully parsed resource list is one of the five
resource names: the item loop only inserts after the membership test. -/
lemma parseResourceItems_names :
    ∀ (items : List String) (acc l : List (String × ℤ)),
    (∀ p ∈ acc, p.1 ∈ resource_names) → parseResourceItems items acc = some l →
    ∀ p ∈ l, p.1 ∈ resource_names := by
  intro items
  induction items with
  | nil =>
    intro acc l hacc h p hp
    simp only [parseResourceItems, Option.some_inj] at h
    exact hacc p (h ▸ hp)
  | cons item rest ih =>
    intro acc l hacc h p hp
    simp only [parseResourceItems] at h
    by_cases he : pyStrip item = ""
    · rw [if_pos he] at h
      exact ih acc l hacc h p hp
    · rw [if_neg he] at h
      cases hs : splitFirstSpace (pyStrip item).data with
      | none =>
        rw [hs] at h
        simp at h
      | some pr =>
        obtain ⟨q, nm⟩ := pr
        rw [hs] at h
        replace h : (match pyInt ⟨q⟩ with
            | none => none
            | some qty =>
              if pyTitle (pyStrip ⟨nm⟩) ∈ resource_names ∧ 0 < qty then
                parseResourceItems rest (dictInsert acc (pyTitle (pyStrip ⟨nm⟩)) qty)
              else none) = some l := h
        cases hq : pyInt ⟨q⟩ with
        | none =>
          rw [hq] at h
          simp at h
        | some qty =>
          rw [hq] at h
          replace h : (if pyTitle (pyStrip ⟨nm⟩) ∈ resource_names ∧ 0 < qty then
              parseResourceItems rest (dictInsert acc (pyTitle (pyStrip ⟨nm⟩)) qty)
            else none) = some l := h
          by_cases hcond : pyTitle (pyStrip ⟨nm⟩) ∈ resource_names ∧ 0 < qty
          · rw [if_pos hcond] at h
            exact ih _ l (dictInsert_names hacc hcond.1) h p hp
          · rw [if_neg hcond] at h
            simp at h

/-- A successfully parsed offer only names the five resources, on both
sides. -/
lemma parse_offer_names {s : String} {o : ParsedOffer}
    (h : parse_offer s = some o) :
    (∀ p ∈ o.offered_items, p.1 ∈ resource_names)
      ∧ (∀ p ∈ o.requested_items, p.1 ∈ resource_names) := by
  simp only [parse_offer] at h
  rcases hsp : splitYouGive (normWS s) with _ | ⟨p0, _ | ⟨p1, _ | _⟩⟩ <;>
    rw [hsp] at h <;> try simp at h
  cases ho : parse_resource_list (pyStrip (removeIGive p0)) with
  | none =>
    rw [ho] at h
    simp at h
  | some offered =>
    rw [ho] at h
    cases hr : parse_resource_list (rstripDot (pyStrip p1)) with
    | none =>
      rw [hr] at h
      simp at h
    | some requested =>
      rw [hr] at h
      replace h : (if offered = [] ∨ requested = [] then none
          else some (ParsedOffer.mk offered requested)) = some o := h
      by_cases hemp : offered = [] ∨ requested = []
      · rw [if_pos hemp] at h
        simp at h
      · rw [if_neg hemp] at h
        have ho2 : o = ⟨offered, requested⟩ := by
          injection h with h
          exact h.symm
        subst ho2
        exact ⟨parseResourceItems_names _ [] offered (by intro p hp; simp at hp) ho,
          parseResourceItems_names _ [] requested (by intro p hp; simp at hp) hr⟩

/-- Claim C7, counterexample: The spec's wire-format offer
`I give 1 Wheat; You give 1 Ore` parses, its canonical rendering via
`_offer_to_str` is `Offered items: 1 Wheat; Requested items: 1 Ore`, and
re-parsing that rendering yields **no** offer (it does not contain the
`You give` separator the grammar requires), not an equal one. -/
theorem c7_counterexample :
    parse_offer "I give 1 Wheat; You give 1 Ore"
        = some ⟨[("Wheat", 1)], [("Ore", 1)]⟩
      ∧ offer_to_str ⟨[("Wheat", 1)], [("Ore", 1)]⟩
          = "Offered items: 1 Wheat; Requested items: 1 Ore"
      ∧ parse_offer (offer_to_str ⟨[("Wheat", 1)], [("Ore", 1)]⟩) = none := by
  refine ⟨by decide, by decide, by decide⟩

/-- Claim C7, amended: Re-parsing the canonical rendering of any
successfully parsed offer yields no offer at all: `_offer_to_str`
renders as `Offered items: …; Requested items: …`, which never contains
the `You give` separator (no character of the rendering even lowercases
to `y`), so `_parse_offer` fails its two-part split. -/
theorem c7_render_not_reparseable (s : String) (o : ParsedOffer)
    (h : parse_offer s = some o) :
    parse_offer (offer_to_str o) = none := by
  obtain ⟨h1, h2⟩ := parse_offer_names h
  have hnoY : ∀ c ∈ (normWS (offer_to_str o)).data, c.toLower ≠ 'y' := by
    intro c hc
    rcases mem_normWS hc with h3 | h3
    · subst h3
      decide
    · exact offer_to_str_noY h1 h2 c h3
  have hsingle := splitYouGive_single (normWS (offer_to_str o)) hnoY
  simp only [parse_offer]
  rw [hsingle]

/-- Closed witness for `c7_render_not_reparseable` at the counterexample
offer. -/
theorem c7_render_not_reparseable_witness :
    parse_offer "I give 1 Wheat; You give 1 Ore"
        = some ⟨[("Wheat", 1)], [("Ore", 1)]⟩
      ∧ parse_offer (offer_to_str ⟨[("Wheat", 1)], [("Ore", 1)]⟩) = none :=
  ⟨by decide,
    c7_render_not_reparseable "I give 1 Wheat; You give 1 Ore"
      ⟨[("Wheat", 1)], [("Ore", 1)]⟩ (by decide)⟩

end Negotiation
